import Mathlib

/-!
# Verification of the Snyk Export API client (`snyk_export.py`)

A shallow embedding, in Lean 4, of the core data transformations of the
`SnykExportAPI` client class: the job-status polling state machine, the
legacy-endpoint status fallback, the multi-part artifact download, the
CSV merge/deduplication, the metadata-enrichment frame, and the
organization-list filter.

Modelling conventions:
* Python strings are Lean `String`; `str.lower()` is modelled by
  `pyLower`, mapping `Char.toLower` over the characters.
* A stored pandas cell is an `Option String`: `none` is a missing value
  (`NaN`, as produced by reading a blank CSV cell).
* pandas `DataFrame`s are `DataFrame`: an ordered column list plus rows
  of cells, each row aligned positionally with the column list.
* The Python value `row.get(col)` hands to the enrichment loop is a
  `PyCell`, which separates the three cases with their distinct Python
  truthiness: `None` for an absent column (falsy), `NaN` for a blank
  cell (truthy, since `bool(float("nan"))` is `True`), or a string
  (falsy exactly when empty). `pyGet` bridges a `DataFrame` row to it.
* `truthy` is the truthiness of an optional string decoded from JSON
  (`None` or `str`; no `NaN` arises there).
* HTTP requests are modelled by their observable outcome (`HttpResp`):
  a decoded payload on success, or a status code on `HTTPError`.
* Raising an exception is modelled by returning `Except`.
-/

namespace SnykExport

/-- Model of Python `str.lower()`: lowercase every character. -/
def pyLower (s : String) : String := ⟨s.data.map Char.toLower⟩

/-- Model of Python `str.endswith(suffix)` as used on file paths. -/
def pyEndsWith (s suf : String) : Bool := suf.data.isSuffixOf s.data

/-- Python truthiness of an optional string decoded from JSON (such as
`export_data.get("id")`): `None` and `""` are falsy. Not used for
pandas cells, where a blank cell is a truthy `NaN` — see `PyCell`. -/
def truthy : Option String → Bool
  | none => false
  | some s => s ≠ ""

/-! ## C1: the polling state machines

`start_group_export_workflow` (snyk_export.py lines 483–516) examines the
lower-cased status string each iteration:
```
if export_status in ("complete", "finished"): ... download ... break
if export_status in ("failed", "cancelled"): ... break
... time.sleep(5); attempts += 1          # any other status: poll again
```
`start_export_workflow` (lines 1241–1266) instead does:
```
if export_status == "complete": ... download ... break
elif export_status in ["failed", "cancelled"]: ... break
... time.sleep(5); attempts += 1
```
-/

/-- What one iteration of a polling loop does with a status string. -/
inductive PollAction where
  | downloadAndStop
  | stopFailure
  | pollAgain
deriving DecidableEq, Repr

/-- One iteration of the group-export polling loop
(`start_group_export_workflow`): the status string is lower-cased and
compared against the terminal sets. -/
def groupPollStep (exportStatus : String) : PollAction :=
  let s := pyLower exportStatus
  if s = "complete" ∨ s = "finished" then .downloadAndStop
  else if s = "failed" ∨ s = "cancelled" then .stopFailure
  else .pollAgain

/-- One iteration of the single-organization polling loop
(`start_export_workflow`): only `"complete"` is terminal success. -/
def orgPollStep (exportStatus : String) : PollAction :=
  let s := pyLower exportStatus
  if s = "complete" then .downloadAndStop
  else if s = "failed" ∨ s = "cancelled" then .stopFailure
  else .pollAgain

/-- Outcome of running a polling loop to completion. -/
inductive PollOutcome where
  | success (attempt : Nat)
  | failure (attempt : Nat)
  | timeout
deriving DecidableEq, Repr

/-- The `while attempts < max_attempts` loop, driven by a step
classifier and a stream of observed status strings (the string seen at
attempt `i` is `statuses i`). `budget` is the number of attempts left. -/
def runPoll (step : String → PollAction) (statuses : Nat → String) :
    Nat → Nat → PollOutcome
  | 0, _ => .timeout
  | budget + 1, i =>
    match step (statuses i) with
    | .downloadAndStop => .success i
    | .stopFailure => .failure i
    | .pollAgain => runPoll step statuses budget (i + 1)

/-! ## C2: issue-key derivation (`enrich_export_files`, lines 140–148)

```
issue_id = row.get("ISSUE_URL")
if issue_id:
    match = re.search(r"issue-([^/?]+)", str(issue_id))
    if match:
        issue_key = match.group(1)
    else:
        issue_key = str(issue_id)
else:
    issue_key = row.get("PROBLEM_ID")
```
`re.search` with pattern `issue-([^/?]+)` finds the leftmost position at
which the literal `issue-` is followed by at least one character other
than `/` or `?`, and captures the maximal run of such characters.

`row.get("ISSUE_URL")` returns `None` when the column is absent, a
`NaN` float when the cell is blank, and the cell string otherwise.
`bool(float("nan"))` is `True`, so a blank cell takes the truthy
branch: `str(nan)` is `"nan"`, the pattern fails on it, and the derived
key is the literal string `"nan"` — the `PROBLEM_ID` fallback is
reached only for an absent column or an empty-string cell. -/

/-- The Python value a pandas `row.get(col)` returns: `None` for an
absent column, `NaN` for a blank cell, or the cell string. -/
inductive PyCell where
  | none
  | nan
  | str (s : String)
deriving DecidableEq, Repr

/-- Python truthiness of a `row.get` value: `None` and `""` are falsy;
`NaN` is truthy (`bool(float("nan"))` is `True`). -/
def pyTruthy : PyCell → Bool
  | .none => false
  | .nan => true
  | .str s => s ≠ ""

/-- Model of Python `str()` on a `row.get` value: `str(nan)` is
`"nan"`, `str(None)` is `"None"`. -/
def pyStr : PyCell → String
  | .none => "None"
  | .nan => "nan"
  | .str s => s

/-- The literal part of the pattern `issue-([^/?]+)`. -/
def issueMarker : List Char := "issue-".data

/-- Try to match `issue-([^/?]+)` anchored at the start of `cs`,
returning the captured group. -/
def matchIssueAt (cs : List Char) : Option (List Char) :=
  if issueMarker.isPrefixOf cs then
    let key := (cs.drop issueMarker.length).takeWhile fun c => ¬ (c = '/' ∨ c = '?')
    if key.isEmpty then none else some key
  else none

/-- Model of `re.search(r"issue-([^/?]+)", s).group(1)`: scan left to
right for the first position where the anchored match succeeds. -/
def searchIssueKey : List Char → Option (List Char)
  | [] => none
  | c :: cs =>
    match matchIssueAt (c :: cs) with
    | some k => some k
    | none => searchIssueKey cs

/-- The issue-key derivation of `enrich_export_files`: if the
`ISSUE_URL` value is Python-truthy (a non-empty string, or the truthy
`NaN` of a blank cell), the key is the group captured from
`str(issue_id)`, else `str(issue_id)` itself; only a Python-falsy
`ISSUE_URL` (absent column, or empty string) falls back to the raw
`PROBLEM_ID` value. -/
def deriveIssueKey (issueUrl problemId : PyCell) : PyCell :=
  if pyTruthy issueUrl then
    let u := pyStr issueUrl
    match searchIssueKey u.data with
    | some k => .str ⟨k⟩
    | none => .str u
  else problemId

/-! ## C3: status queries with legacy fallback

`get_group_export_status` (lines 236–273) requests the primary status
endpoint; on `HTTPError` it retries the `/groups/{gid}/jobs/export/{eid}`
path; if that also raises `HTTPError` it substitutes
`{"data": {"attributes": {"status": "started"}}}`, then lower-cases the
status field of whatever payload it ended up with.

`get_export_status` (lines 941–976) retries the legacy path only when
the primary response code is 404 or 400; if the legacy request also
raises (or the code is any other), the exception propagates and the
outer handler re-raises a `RequestException`: no status is synthesized. -/

/-- Observable outcome of one HTTP request: decoded payload or the
status code of an `HTTPError`. -/
inductive HttpResp (α : Type) where
  | ok (payload : α)
  | err (code : Nat)
deriving DecidableEq, Repr

/-- The `data.attributes` object of a status payload. -/
structure StatusAttrs where
  status : Option String
deriving DecidableEq, Repr

/-- The `data` object of a status payload. -/
structure StatusPayload where
  attrs : StatusAttrs
deriving DecidableEq, Repr

/-- The final normalization in `get_group_export_status`: lower-case the
status field when it is a string. -/
def normalizeStatus (d : StatusPayload) : StatusPayload :=
  ⟨⟨d.attrs.status.map pyLower⟩⟩

/-- Model of `get_group_export_status`, as a function of the outcomes of the
primary request and the legacy `jobs`-path request. -/
def get_group_export_status (primary fallback : HttpResp StatusPayload) :
    StatusPayload :=
  let data :=
    match primary with
    | .ok d => d
    | .err _ =>
      match fallback with
      | .ok d => d
      | .err _ => ⟨⟨some "started"⟩⟩
  normalizeStatus data

/-- Model of the org-level `get_export_status`, as a function of the outcomes of the
primary request and the legacy request; `.error ()` models the raised
`RequestException`. -/
def get_export_status (primary fallback : HttpResp StatusPayload) :
    Except Unit StatusPayload :=
  match primary with
  | .ok d => .ok d
  | .err code =>
    if code = 404 ∨ code = 400 then
      match fallback with
      | .ok d => .ok d
      | .err _ => .error ()
    else .error ()

/-! ## C5/C7: artifact download

`download_group_export` (lines 275–349) validates the status payload,
collects the per-part result URLs (or falls back to the single download
endpoint), then streams each part to
`exports/<ts>/<base>(_part<k>)?<ext>`; a zero-byte file raises
`ValueError` (not caught by the `except HTTPError` handler), and an
`HTTPError` triggers the legacy `jobs`-path fallback only in the
single-URL case.

`download_export` (lines 978–1097) performs a single download wrapped in
a 3-attempt retry; the zero-byte `ValueError` escapes the retry handler
(which catches only `RequestException`/`IOError`) and propagates. -/

/-- Observable outcome of fetching one URL: the number of bytes written
to disk, or an `HTTPError` from `raise_for_status`. -/
inductive Dl where
  | ok (size : Nat)
  | httpErr
deriving DecidableEq, Repr

/-- The exceptions the download functions can raise. -/
inductive DlError where
  | invalidResult
  | notReady
  | noExportId
  | noOrgId
  | emptyFile
  | httpFailure
deriving DecidableEq, Repr

/-- The `data.attributes` object of a group export status payload, restricted to
the fields `download_group_export` reads. `resultUrls` are the `url`
fields of the `results` list items. -/
structure GroupExportAttrs where
  status : Option String
  resultUrls : List String
  downloadUrl : Option String
deriving DecidableEq, Repr

/-- The `data` object of a group export status payload. -/
structure GroupExportData where
  id : Option String
  attributes : GroupExportAttrs
deriving DecidableEq, Repr

/-- The per-part output path: directory, base name, a part suffix
when there is more than one URL, and the extension. -/
def partPath (dir base ext : String) (total idx : Nat) : String :=
  dir ++ "/" ++ base ++ (if total > 1 then "_part" ++ toString idx else "") ++ ext

/-- The primary group download endpoint URL. -/
def groupDownloadEndpoint (baseUrl groupId exportId apiVersion : String) : String :=
  baseUrl ++ "/groups/" ++ groupId ++ "/export/" ++ exportId ++
    "/download?version=" ++ apiVersion

/-- The legacy `jobs`-path group download URL. -/
def groupJobsDownloadUrl (baseUrl groupId exportId apiVersion : String) : String :=
  baseUrl ++ "/groups/" ++ groupId ++ "/jobs/export/" ++ exportId ++
    "/download?version=" ++ apiVersion

/-- The part-download loop of `download_group_export`, enumerating URLs
from index `idx` (the Python loop starts at 1). Returns the saved files
as (path, size-on-disk) pairs, or the first raised exception. -/
def downloadParts (fetch : String → Dl) (fallbackUrl : String)
    (dir base ext : String) (total : Nat) :
    Nat → List String → Except DlError (List (String × Nat))
  | _, [] => .ok []
  | idx, url :: rest =>
    let outPath := partPath dir base ext total idx
    match fetch url with
    | .ok size =>
      if size = 0 then .error .emptyFile
      else
        match downloadParts fetch fallbackUrl dir base ext total (idx + 1) rest with
        | .ok files => .ok ((outPath, size) :: files)
        | .error e => .error e
    | .httpErr =>
      if total = 1 then
        match fetch fallbackUrl with
        | .ok size =>
          if size = 0 then .error .emptyFile
          else
            match downloadParts fetch fallbackUrl dir base ext total (idx + 1) rest with
            | .ok files => .ok ((outPath, size) :: files)
            | .error e => .error e
        | .httpErr => .error .httpFailure
      else .error .httpFailure

/-- Model of `download_group_export`, as a function of the fetch outcomes. -/
def download_group_export (fetch : String → Dl)
    (baseUrl apiVersion groupId : String)
    (exportResult : Option GroupExportData) (dir base ext : String) :
    Except DlError (List (String × Nat)) :=
  match exportResult with
  | none => .error .invalidResult
  | some data =>
    let status := pyLower (data.attributes.status.getD "")
    if status = "complete" ∨ status = "finished" then
      if truthy data.id then
        let exportId := data.id.getD ""
        let resultUrls :=
          if data.attributes.resultUrls ≠ [] then data.attributes.resultUrls
          else [data.attributes.downloadUrl.getD
                  (groupDownloadEndpoint baseUrl groupId exportId apiVersion)]
        downloadParts fetch (groupJobsDownloadUrl baseUrl groupId exportId apiVersion)
          dir base ext resultUrls.length 1 resultUrls
      else .error .noExportId
    else .error .notReady

/-- The `data.attributes` object of an org-level export payload, restricted
to the fields `download_export` reads. -/
structure OrgExportAttrs where
  status : Option String
  downloadUrl : Option String
deriving DecidableEq, Repr

/-- The `data` object of an org-level export status payload. -/
structure OrgExportData where
  id : Option String
  attributes : OrgExportAttrs
deriving DecidableEq, Repr

/-- The retry loop of `download_export` (`max_retries = 3`): `fetch n`
is the outcome of attempt `n`; a zero-byte result raises `ValueError`,
which the retry handler does not catch, so it aborts immediately; an
`HTTPError` is retried until the attempt budget runs out. -/
def downloadAttempts (fetch : Nat → Dl) (outFile : String) :
    Nat → Nat → Except DlError (String × Nat)
  | 0, _ => .error .httpFailure
  | fuel + 1, attempt =>
    match fetch attempt with
    | .ok size =>
      if size = 0 then .error .emptyFile
      else .ok (outFile, size)
    | .httpErr =>
      if fuel = 0 then .error .httpFailure
      else downloadAttempts fetch outFile fuel (attempt + 1)

/-- Model of the org-level `download_export`: status must be exactly `"complete"`;
then the export id and org id are required, and the download runs under
the 3-attempt retry. `orgId` is the id resolved from the payload
relationships or or the client instance. -/
def download_export (fetch : Nat → Dl) (orgId : Option String)
    (exportResult : Option OrgExportData) (outFile : String) :
    Except DlError (String × Nat) :=
  match exportResult with
  | none => .error .invalidResult
  | some data =>
    if pyLower (data.attributes.status.getD "") = "complete" then
      if truthy data.id then
        if truthy orgId then downloadAttempts fetch outFile 3 1
        else .error .noOrgId
      else .error .noExportId
    else .error .notReady

/-! ## DataFrames, `combine_csv_files` (C4/C8) -/

/-- A pandas `DataFrame`: ordered column names and rows of cells aligned
positionally with the column list. A `none` cell is `NaN`. -/
structure DataFrame where
  cols : List String
  rows : List (List (Option String))
deriving DecidableEq, Repr

/-- The cell of row `r` (laid out along `cols`) in column `c`: `none`
when the column is absent or the cell is `NaN`. -/
def getCell (cols : List String) (r : List (Option String)) (c : String) :
    Option String :=
  ((cols.zip r).lookup c).join

/-- Column union in order of first appearance, as `pd.concat` builds it
for frames with differing columns. -/
def unionCols (dfs : List DataFrame) : List String :=
  dfs.foldl (fun acc df => acc ++ df.cols.filter (fun c => decide (c ∉ acc))) []

/-- Re-lay a row out along the union column list, padding columns the
source frame lacks with `NaN`. -/
def alignRow (ucols cols : List String) (r : List (Option String)) :
    List (Option String) :=
  ucols.map (getCell cols r)

/-- Model of `pd.concat(dfs, ignore_index=True)`. -/
def concatDfs (dfs : List DataFrame) : DataFrame :=
  let u := unionCols dfs
  ⟨u, dfs.flatMap (fun df => df.rows.map (alignRow u df.cols))⟩

/-- Model of `drop_duplicates` with keep=first on the image of `key`: keep each
element whose key has not been seen before. pandas treats `NaN` keys as
equal to each other, which the `Option`-valued key reproduces. -/
def keepFirst {α β : Type} [DecidableEq β] (key : α → β) :
    List β → List α → List α
  | _, [] => []
  | seen, x :: xs =>
    if key x ∈ seen then keepFirst key seen xs
    else x :: keepFirst key (key x :: seen) xs

/-- The deduplication key column of `combine_csv_files`. -/
def keyColumn : String := "PROJECT_PUBLIC_ID"

/-- Model of `combine_csv_files`, as a function of the successfully read input
frames (missing or unreadable files are already skipped): concatenate,
then deduplicate by `PROJECT_PUBLIC_ID` when that column is present,
otherwise by whole-row identity. `none` models the `False` return when
no input could be read. -/
def combine_csv_files (dfs : List DataFrame) : Option DataFrame :=
  match dfs with
  | [] => none
  | _ :: _ =>
    let combined := concatDfs dfs
    if keyColumn ∈ combined.cols then
      some ⟨combined.cols,
            keepFirst (fun r => getCell combined.cols r keyColumn) [] combined.rows⟩
    else
      some ⟨combined.cols, keepFirst id [] combined.rows⟩

/-! ## Metadata enrichment (C2/C6/C9)

`enrich_export_files` reads each `.csv` file, computes seven per-row
values (via the project endpoint and the per-org ignore-policy map,
both cached), then assigns seven columns and rewrites the file. The
network lookups are abstracted as an oracle: `none` models a raised
lookup error, which the code catches per record, leaving blanks. -/

/-- Project metadata, as read from the v1 project endpoint response:
`created`, `totalDependencies` and the `json.dumps`-serialized
`issueCountsBySeverity`. -/
structure ProjectInfo where
  created : String
  totalDependencies : String
  issueCountsBySeverity : String
deriving DecidableEq, Repr

/-- One entry of the per-organization ignore map built by
`get_org_policies`. -/
structure IgnoreInfo where
  reason : String
  reasonType : String
  notes : String
  ignoredSince : String
deriving DecidableEq, Repr

/-- The external inputs of enrichment: the default `org_id` of the client
and the two (cached) lookup endpoints; `none` models a lookup that
raises. -/
structure EnrichOracle where
  defaultOrg : Option String
  projectLookup : String → String → Option ProjectInfo
  policyLookup : String → Option (List (String × IgnoreInfo))

/-- The seven per-row values accumulated in `additional_cols`. -/
structure Enriched7 where
  projectCreated : String
  projectDependencies : String
  severityCounts : String
  ignoreReason : String
  ignoreReasonType : String
  ignoreNotes : String
  ignoredSince : String
deriving DecidableEq, Repr

/-- Model of `row.get(col)` on a `DataFrame` row: `None` when the
column is absent, `NaN` when the stored cell is missing, else the cell
string. -/
def pyGet (cols : List String) (r : List (Option String)) (c : String) :
    PyCell :=
  if c ∈ cols then
    match getCell cols r c with
    | some s => .str s
    | Option.none => .nan
  else .none

/-- Lift the Python `Optional[str]` attribute `self.org_id`. -/
def pyOfOpt : Option String → PyCell
  | some s => .str s
  | none => .none

/-- The per-row body of the `for _, row in df.iterrows()` loop
(lines 118–170). `org_id = row.get("ORG_PUBLIC_ID") or self.org_id`
keeps a truthy cell value (including a `NaN`); both lookups receive
their arguments through the f-string `str()` conversion; the ignore
map is keyed by strings, so a non-string issue key matches nothing. -/
def enrichValues (o : EnrichOracle) (cols : List String)
    (r : List (Option String)) : Enriched7 :=
  let orgCell := pyGet cols r "ORG_PUBLIC_ID"
  let orgId := if pyTruthy orgCell then orgCell else pyOfOpt o.defaultOrg
  let projectId := pyGet cols r "PROJECT_PUBLIC_ID"
  let proj :=
    if pyTruthy orgId ∧ pyTruthy projectId then
      o.projectLookup (pyStr orgId) (pyStr projectId)
    else none
  let projectCreated := match proj with | some p => p.created | none => ""
  let projectDependencies := match proj with | some p => p.totalDependencies | none => ""
  let severityCounts := match proj with | some p => p.issueCountsBySeverity | none => ""
  let issueKey := deriveIssueKey (pyGet cols r "ISSUE_URL") (pyGet cols r "PROBLEM_ID")
  let ign :=
    if pyTruthy orgId ∧ pyTruthy issueKey then
      match o.policyLookup (pyStr orgId) with
      | some policyMap =>
        match issueKey with
        | .str s => policyMap.lookup s
        | _ => none
      | none => none
    else none
  match ign with
  | some i =>
    ⟨projectCreated, projectDependencies, severityCounts,
     i.reason, i.reasonType, i.notes, i.ignoredSince⟩
  | none =>
    ⟨projectCreated, projectDependencies, severityCounts, "", "", "", ""⟩

/-- Replace the cell of the first column named `c` in a row. -/
def replaceCell : List String → String → Option String →
    List (Option String) → List (Option String)
  | _, _, _, [] => []
  | [], _, _, r => r
  | c0 :: cs, c, v, x :: xs =>
    if c0 = c then v :: xs else x :: replaceCell cs c v xs

/-- Assignment of a column, `df[col] = values`: overwrite in place when it exists,
otherwise append it on the right. -/
def setColumn (df : DataFrame) (c : String) (vals : List String) : DataFrame :=
  if c ∈ df.cols then
    ⟨df.cols, List.zipWith (fun r v => replaceCell df.cols c (some v) r) df.rows vals⟩
  else
    ⟨df.cols ++ [c], List.zipWith (fun r v => r ++ [some v]) df.rows vals⟩

/-- The seven assigned columns, in the insertion order of
`additional_cols`, paired with their value projections. -/
def enrichColumns : List (String × (Enriched7 → String)) :=
  [("PROJECT_CREATED_AT", Enriched7.projectCreated),
   ("PROJECT_TOTAL_DEPENDENCIES", Enriched7.projectDependencies),
   ("PROJECT_SEVERITY_COUNTS", Enriched7.severityCounts),
   ("IGNORE_REASON", Enriched7.ignoreReason),
   ("IGNORE_REASON_TYPE", Enriched7.ignoreReasonType),
   ("IGNORE_NOTES", Enriched7.ignoreNotes),
   ("IGNORED_SINCE", Enriched7.ignoredSince)]

/-- The names of the seven enrichment columns. -/
def newColNames : List String := enrichColumns.map Prod.fst

/-- Enrich one frame: compute the per-row values from the original
rows, then perform the seven sequential column assignments
(`for col, values in additional_cols.items(): df[col] = values`). -/
def enrichDf (o : EnrichOracle) (df : DataFrame) : DataFrame :=
  let es := df.rows.map (enrichValues o df.cols)
  enrichColumns.foldl (fun d p => setColumn d p.1 (es.map p.2)) df

/-- Content of a file on disk: a readable CSV table, or anything else
(a JSON artifact, or bytes `pd.read_csv` fails on). -/
inductive FileContent where
  | csvData (df : DataFrame)
  | raw (content : String)
deriving DecidableEq, Repr

/-- The path filter at the top of the loop:
`if not file_path.lower().endswith(".csv"): continue`. -/
def isCsvPath (p : String) : Bool := pyEndsWith (pyLower p) ".csv"

/-- What `enrich_export_files` leaves on disk at one path. -/
def enrichFile (o : EnrichOracle) (path : String) (content : FileContent) :
    FileContent :=
  if isCsvPath path then
    match content with
    | .csvData df => .csvData (enrichDf o df)
    | .raw b => .raw b
  else content

/-- Model of `enrich_export_files` over a list of (path, on-disk content). -/
def enrich_export_files (o : EnrichOracle)
    (files : List (String × FileContent)) : List (String × FileContent) :=
  files.map (fun pc => (pc.1, enrichFile o pc.1 pc.2))

/-! ## C10: `list_groups` (lines 576–617) -/

/-- The hard-coded `excluded_ids` set of `list_groups`. -/
def excludedIds : List String :=
  ["a8b06ecd-d0db-4a12-941d-c00691975a90",
   "788993e3-0241-4cc7-885d-4789d2a41ec5",
   "48ad8276-fee9-456b-a935-d75cc0ba063f",
   "c0aa30b3-2123-46f3-8171-1c2953485c32",
   "c655dde1-2a73-4f76-89b0-b7e7f0ae2dcd",
   "8c6a7f7d-a46b-4d6a-98ee-5b44ff992519",
   "8b9466b4-1f85-4fef-bf73-3b44184082fa",
   "e7f5d5d2-f25d-45be-b9f7-58cb0b74aad7",
   "26983627-fe27-4e94-bf8f-0050874cda60",
   "492c82c0-8300-445d-9a64-7ce90cdc03db"]

/-- One element of the `data` array of the organizations response. -/
structure ApiOrg where
  id : Option String
  name : Option String
deriving DecidableEq, Repr

/-- One entry of the list `list_groups` returns. -/
structure GroupEntry where
  id : Option String
  name : String
  typ : String
deriving DecidableEq, Repr

/-- The loop body: `if org_id not in excluded_ids: groups.append(...)`.
(`None not in excluded_ids` is true, so an id-less entry is kept.) -/
def includeOrg (org : ApiOrg) : Option GroupEntry :=
  match org.id with
  | some i =>
    if i ∈ excludedIds then none
    else some ⟨some i, org.name.getD "Unnamed Organization", "organization"⟩
  | none => some ⟨none, org.name.getD "Unnamed Organization", "organization"⟩

/-- Model of `list_groups`, as a function of the decoded `data` array of a
successful organizations-endpoint response. -/
def list_groups (responseData : List ApiOrg) : List GroupEntry :=
  responseData.filterMap includeOrg

/-! Helper lemmas. -/

/-- A poll loop whose observed statuses are all non-terminal runs its
whole budget and times out. -/
theorem runPoll_timeout (step : String → PollAction) (statuses : Nat → String)
    (h : ∀ j, step (statuses j) = .pollAgain) :
    ∀ budget start, runPoll step statuses budget start = .timeout := by
  intro budget
  induction budget with
  | zero => intro start; rfl
  | succ n ih => intro start; simp only [runPoll, h start]; exact ih (start + 1)

/-!  Claim theorems. -/

/-- C1 counterexample: the single-organization polling loop does NOT
treat `"finished"` as terminal success — it re-polls, while the group
loop downloads and stops on the same status string. -/
theorem c1_counterexample :
    orgPollStep "finished" = .pollAgain ∧
    orgPollStep "finished" ≠ .downloadAndStop ∧
    groupPollStep "finished" = .downloadAndStop := by decide

/-- C1 (amended): the group polling loop treats `"finished"` and
`"complete"` (case-insensitively) as terminal success and `"failed"` and
`"cancelled"` as terminal failure, re-polling on anything else until the
attempt budget is exhausted; the single-organization loop shares the
terminal-failure set but treats only `"complete"` as terminal success —
`"finished"` is non-terminal there. -/
theorem c1_poll_classification (s : String) (budget start : Nat)
    (statuses : Nat → String)
    (hnt : ∀ j, groupPollStep (statuses j) = .pollAgain ∧
                orgPollStep (statuses j) = .pollAgain) :
    (groupPollStep s = .downloadAndStop ↔
      pyLower s = "complete" ∨ pyLower s = "finished") ∧
    (groupPollStep s = .stopFailure ↔
      pyLower s = "failed" ∨ pyLower s = "cancelled") ∧
    (orgPollStep s = .downloadAndStop ↔ pyLower s = "complete") ∧
    (orgPollStep s = .stopFailure ↔
      pyLower s = "failed" ∨ pyLower s = "cancelled") ∧
    runPoll groupPollStep statuses budget start = .timeout ∧
    runPoll orgPollStep statuses budget start = .timeout := by
  refine ⟨?_, ?_, ?_, ?_,
    runPoll_timeout _ _ (fun j => (hnt j).1) budget start,
    runPoll_timeout _ _ (fun j => (hnt j).2) budget start⟩ <;>
  · simp only [groupPollStep, orgPollStep]
    by_cases hc : pyLower s = "complete" <;>
      by_cases hf : pyLower s = "finished" <;>
      by_cases hfa : pyLower s = "failed" <;>
      by_cases hca : pyLower s = "cancelled" <;>
      simp_all

/-- C1 witness: the classification and the timeout behavior at concrete
inputs. -/
theorem c1_poll_classification_witness :
    (orgPollStep "finished" = .downloadAndStop ↔ pyLower "finished" = "complete") ∧
    runPoll orgPollStep (fun _ => "pending") 3 0 = .timeout := by
  have hnt : ∀ j : Nat, groupPollStep ((fun _ : Nat => "pending") j) = .pollAgain ∧
      orgPollStep ((fun _ : Nat => "pending") j) = .pollAgain := by
    intro j
    show groupPollStep "pending" = .pollAgain ∧ orgPollStep "pending" = .pollAgain
    exact ⟨by decide, by decide⟩
  exact ⟨(c1_poll_classification "finished" 3 0 (fun _ => "pending") hnt).2.2.1,
         (c1_poll_classification "finished" 3 0 (fun _ => "pending") hnt).2.2.2.2.2⟩

/-- C2 counterexample: when `ISSUE_URL` holds a string the pattern
`issue-<key>` does not match, the derived key is the whole URL string,
NOT the `PROBLEM_ID` fallback the claim states; and a blank (`NaN`)
`ISSUE_URL` cell is truthy in Python, so it yields the literal key
`"nan"`, again not the fallback. -/
theorem c2_counterexample :
    searchIssueKey "https://x.example/vuln/abc".data = none ∧
    deriveIssueKey (.str "https://x.example/vuln/abc") (.str "PROB-1")
      = .str "https://x.example/vuln/abc" ∧
    deriveIssueKey (.str "https://x.example/vuln/abc") (.str "PROB-1")
      ≠ .str "PROB-1" ∧
    deriveIssueKey .nan (.str "PROB-1") = .str "nan" := by decide

/-- C2 (amended): if the `ISSUE_URL` value is Python-truthy — a
non-empty string, or the `NaN` of a blank cell — the key is the group
captured by `issue-<key>` when the pattern matches `str(value)` and the
whole `str(value)` when it does not (so a blank cell yields the literal
key `"nan"`); the `PROBLEM_ID` fallback applies only when `ISSUE_URL`
is Python-falsy: the column is absent or the value is an empty
string. -/
theorem c2_issue_key (url : String) (pid : PyCell) (h : url ≠ "") :
    (∀ k, searchIssueKey url.data = some k →
      deriveIssueKey (.str url) pid = .str ⟨k⟩) ∧
    (searchIssueKey url.data = none →
      deriveIssueKey (.str url) pid = .str url) ∧
    deriveIssueKey .nan pid = .str "nan" ∧
    deriveIssueKey .none pid = pid ∧
    deriveIssueKey (.str "") pid = pid := by
  refine ⟨?_, ?_, rfl, rfl, rfl⟩ <;>
    · intro hk
      try intro hk2
      simp only [deriveIssueKey, pyTruthy, pyStr]
      simp_all

/-- C2 witness: a matching URL yields the captured key. -/
theorem c2_issue_key_witness :
    deriveIssueKey (.str "https://app.snyk.io/org/o/issue-SNYK-JS-X-1?p=2")
      (.str "PROB-1") = .str "SNYK-JS-X-1" :=
  (c2_issue_key "https://app.snyk.io/org/o/issue-SNYK-JS-X-1?p=2"
    (.str "PROB-1") (by decide)).1 "SNYK-JS-X-1".data (by decide)

/-- C3 counterexample: when the primary org-level status request fails
with 404 and the legacy request also fails, `get_export_status` raises
instead of synthesizing a `"started"` payload (only the group-level
function synthesizes). -/
theorem c3_counterexample :
    get_export_status (.err 404) (.err 500) = .error () ∧
    get_group_export_status (.err 404) (.err 500) = ⟨⟨some "started"⟩⟩ :=
  ⟨rfl, by decide⟩

/-- C3 (amended): `get_group_export_status` retries the legacy path on
any HTTP error of the primary endpoint and synthesizes a `"started"`
status when both fail; the org-level `get_export_status` retries the
legacy path only when the primary failed with 404 or 400, and raises —
with no synthesized status — when the legacy retry also fails or when
the primary error code is any other. -/
theorem c3_status_fallback (c1 c2 : Nat) (d : StatusPayload)
    (hc : c1 = 404 ∨ c1 = 400) (hn : ¬(c2 = 404 ∨ c2 = 400)) :
    get_group_export_status (.err c1) (.ok d) = normalizeStatus d ∧
    get_group_export_status (.err c2) (.ok d) = normalizeStatus d ∧
    get_group_export_status (.err c1) (.err c2) = ⟨⟨some "started"⟩⟩ ∧
    get_export_status (.err c1) (.ok d) = .ok d ∧
    get_export_status (.err c1) (.err c2) = .error () ∧
    get_export_status (.err c2) (.ok d) = .error () := by
  refine ⟨rfl, rfl, by simp [get_group_export_status, normalizeStatus, pyLower], ?_, ?_, ?_⟩ <;>
    simp [get_export_status, hc, hn]

/-- C3 witness: the fallback behaviors at concrete status codes. -/
theorem c3_status_fallback_witness :
    get_group_export_status (.err 404) (.err 500) = ⟨⟨some "started"⟩⟩ ∧
    get_export_status (.err 404) (.err 500) = .error () ∧
    get_export_status (.err 500) (.ok ⟨⟨some "complete"⟩⟩) = .error () :=
  ⟨(c3_status_fallback 404 500 ⟨⟨none⟩⟩ (by decide) (by decide)).2.2.1,
   (c3_status_fallback 404 500 ⟨⟨none⟩⟩ (by decide) (by decide)).2.2.2.2.1,
   (c3_status_fallback 404 500 ⟨⟨some "complete"⟩⟩ (by decide) (by decide)).2.2.2.2.2⟩

/-- Every file the part-download loop reports as saved has nonzero
size: a zero-byte write raises before the path is appended. -/
theorem downloadParts_pos (fetch : String → Dl) (fb dir base ext : String)
    (total : Nat) :
    ∀ (urls : List String) (idx : Nat) (files : List (String × Nat)),
      downloadParts fetch fb dir base ext total idx urls = .ok files →
      ∀ p ∈ files, p.2 ≠ 0 := by
  intro urls
  induction urls with
  | nil =>
    intro idx files h p hp
    simp only [downloadParts] at h
    injection h with h
    subst h
    simp at hp
  | cons url rest ih =>
    intro idx files h p hp
    simp only [downloadParts] at h
    cases hf : fetch url with
    | ok size =>
      simp only [hf] at h
      by_cases hz : size = 0
      · simp [hz] at h
      · rw [if_neg hz] at h
        cases hrec : downloadParts fetch fb dir base ext total (idx + 1) rest with
        | ok files2 =>
          rw [hrec] at h
          injection h with h
          subst h
          rcases List.mem_cons.mp hp with rfl | hp2
          · exact hz
          · exact ih (idx + 1) files2 hrec p hp2
        | error e => rw [hrec] at h; simp at h
    | httpErr =>
      simp only [hf] at h
      by_cases ht : total = 1
      · rw [if_pos ht] at h
        cases hf2 : fetch fb with
        | ok size =>
          simp only [hf2] at h
          by_cases hz : size = 0
          · simp [hz] at h
          · rw [if_neg hz] at h
            cases hrec : downloadParts fetch fb dir base ext total (idx + 1) rest with
            | ok files2 =>
              rw [hrec] at h
              injection h with h
              subst h
              rcases List.mem_cons.mp hp with rfl | hp2
              · exact hz
              · exact ih (idx + 1) files2 hrec p hp2
            | error e => rw [hrec] at h; simp at h
        | httpErr => simp only [hf2] at h; simp at h
      · rw [if_neg ht] at h; simp at h

/-- The 3-attempt retry loop never returns a zero-size file. -/
theorem downloadAttempts_pos (fetch : Nat → Dl) (outFile : String) :
    ∀ (fuel attempt : Nat) (f : String × Nat),
      downloadAttempts fetch outFile fuel attempt = .ok f → f.2 ≠ 0 := by
  intro fuel
  induction fuel with
  | zero => intro attempt f h; simp [downloadAttempts] at h
  | succ n ih =>
    intro attempt f h
    simp only [downloadAttempts] at h
    cases hf : fetch attempt with
    | ok size =>
      simp only [hf] at h
      by_cases hz : size = 0
      · simp [hz] at h
      · rw [if_neg hz] at h
        injection h with h
        subst h
        exact hz
    | httpErr =>
      simp only [hf] at h
      by_cases hn : n = 0
      · simp [hn] at h
      · rw [if_neg hn] at h
        exact ih (attempt + 1) f h

/-- C5: neither download operation ever returns a zero-byte file among
its saved results — whether a part was served by the primary URL or the
legacy fallback, a zero-size write raises instead of being reported. -/
theorem c5_no_zero_byte_file (fetch : String → Dl)
    (baseUrl apiVersion groupId : String) (res : Option GroupExportData)
    (dir base ext : String) (fetchOrg : Nat → Dl) (orgId : Option String)
    (orgRes : Option OrgExportData) (outFile : String) :
    (∀ files,
      download_group_export fetch baseUrl apiVersion groupId res dir base ext
        = .ok files → ∀ p ∈ files, p.2 ≠ 0) ∧
    (∀ f, download_export fetchOrg orgId orgRes outFile = .ok f → f.2 ≠ 0) := by
  constructor
  · intro files h p hp
    rcases res with - | data
    · simp [download_group_export] at h
    · simp only [download_group_export] at h
      split at h
      · split at h
        · exact downloadParts_pos fetch _ dir base ext _ _ 1 files h p hp
        · simp at h
      · simp at h
  · intro f h
    rcases orgRes with - | data
    · simp [download_export] at h
    · simp only [download_export] at h
      split at h
      · split at h
        · split at h
          · exact downloadAttempts_pos fetchOrg outFile 3 1 f h
          · simp at h
        · simp at h
      · simp at h

/-- C5 witness: a successful concrete run returns a file of size 3. -/
theorem c5_no_zero_byte_file_witness : (("d/f.csv", 3) : String × Nat).2 ≠ 0 :=
  (c5_no_zero_byte_file (fun _ => .ok 3) "b" "v" "g"
    (some ⟨some "e1", ⟨some "complete", ["u1"], none⟩⟩) "d" "f" ".csv"
    (fun _ => .ok 3) (some "o") (some ⟨some "e", ⟨some "complete", none⟩⟩)
    "out.csv").1 [("d/f.csv", 3)] rfl ("d/f.csv", 3) (by simp)

/-- When every URL fetch succeeds with a nonzero size, the part loop
saves one file per URL, named with the enumerated part index. -/
theorem downloadParts_names (fetch : String → Dl) (fb dir base ext : String)
    (total : Nat) :
    ∀ (urls : List String) (idx : Nat),
      (∀ u ∈ urls, ∃ n, fetch u = .ok n ∧ n ≠ 0) →
      ∃ files, downloadParts fetch fb dir base ext total idx urls = .ok files ∧
        files.map Prod.fst
          = (List.range urls.length).map
              (fun k => partPath dir base ext total (idx + k)) := by
  intro urls
  induction urls with
  | nil => intro idx hfe; exact ⟨[], rfl, by simp⟩
  | cons url rest ih =>
    intro idx hfe
    obtain ⟨n, hn, hnz⟩ := hfe url (by simp)
    obtain ⟨files2, hrec, hmap⟩ := ih (idx + 1) (fun u hu => hfe u (by simp [hu]))
    refine ⟨(partPath dir base ext total idx, n) :: files2, ?_, ?_⟩
    · simp only [downloadParts, hn, if_neg hnz, hrec]
    · simp only [List.map_cons, hmap, List.length_cons]
      rw [List.range_succ_eq_map, List.map_cons, List.map_map]
      simp only [List.cons.injEq]
      constructor
      · rw [Nat.add_zero]
      · apply List.map_congr_left
        intro k _
        simp only [Function.comp_apply]
        congr 1
        omega

/-- C7: given a terminal-success payload listing N explicit result URLs
(each of which downloads successfully and non-empty), the retriever
returns exactly N files in URL order, named `base_partK.ext` for
K = 1..N when N > 1 and plain `base.ext` when N = 1. -/
theorem c7_part_naming (fetch : String → Dl)
    (baseUrl apiVersion groupId exportId status : String) (urls : List String)
    (dlUrl : Option String) (dir base ext : String)
    (hstatus : pyLower status = "complete" ∨ pyLower status = "finished")
    (hid : exportId ≠ "") (hne : urls ≠ [])
    (hfetch : ∀ u ∈ urls, ∃ n, fetch u = .ok n ∧ n ≠ 0) :
    ∃ files,
      download_group_export fetch baseUrl apiVersion groupId
        (some ⟨some exportId, ⟨some status, urls, dlUrl⟩⟩) dir base ext
        = .ok files ∧
      files.length = urls.length ∧
      files.map Prod.fst
        = (List.range urls.length).map
            (fun k => partPath dir base ext urls.length (k + 1)) ∧
      (urls.length = 1 → files.map Prod.fst = [dir ++ "/" ++ base ++ ext]) := by
  obtain ⟨files, hdl, hmap⟩ := downloadParts_names fetch
    (groupJobsDownloadUrl baseUrl groupId exportId apiVersion) dir base ext
    urls.length urls 1 hfetch
  have hnames : files.map Prod.fst
      = (List.range urls.length).map
          (fun k => partPath dir base ext urls.length (k + 1)) := by
    rw [hmap]
    apply List.map_congr_left
    intro k _
    congr 1
    omega
  refine ⟨files, ?_, ?_, hnames, ?_⟩
  · simp only [download_group_export, Option.getD_some, truthy]
    rw [if_pos hstatus, if_pos (by simp [hid]), if_pos hne]
    exact hdl
  · have := congrArg List.length hmap
    simpa using this
  · intro h1
    rw [hnames, h1]
    simp [partPath]

/-- C7 witness: two URLs produce `_part1`/`_part2` names in order, and
a concrete single-URL instance produces the unsuffixed name. -/
theorem c7_part_naming_witness :
    (∃ files,
      download_group_export
        (fun u => if u = "u1" then .ok 5 else if u = "u2" then .ok 7 else .httpErr)
        "b" "v" "g" (some ⟨some "e1", ⟨some "finished", ["u1", "u2"], none⟩⟩)
        "d" "f" ".csv" = .ok files ∧
      files.length = 2 ∧
      files.map Prod.fst
        = (List.range 2).map (fun k => partPath "d" "f" ".csv" 2 (k + 1)) ∧
      (2 = 1 → files.map Prod.fst = ["d" ++ "/" ++ "f" ++ ".csv"])) := by
  have h := c7_part_naming
    (fun u => if u = "u1" then .ok 5 else if u = "u2" then .ok 7 else .httpErr)
    "b" "v" "g" "e1" "finished" ["u1", "u2"] none "d" "f" ".csv"
    (by right; decide) (by decide) (by decide)
    (by
      intro u hu
      simp only [List.mem_cons, List.not_mem_nil, or_false] at hu
      rcases hu with rfl | rfl
      · exact ⟨5, rfl, by decide⟩
      · exact ⟨7, rfl, by decide⟩)
  simpa using h

/-- Looking up a column in a row aligned to the same column list
recovers the mapped value exactly when the column is present. -/
theorem lookup_zip_map (f : String → Option String) (c : String) :
    ∀ u : List String,
      (u.zip (u.map f)).lookup c = if c ∈ u then some (f c) else none := by
  intro u
  induction u with
  | nil => simp
  | cons a l ih =>
    simp only [List.map_cons, List.zip_cons_cons, List.lookup]
    by_cases hac : a = c
    · subst hac
      simp
    · have hca : ¬ c = a := fun h => hac h.symm
      have hbeq : (c == a) = false := by simp [hca]
      simp only [hbeq]
      rw [← List.zip_eq_zipWith, ih]
      simp [List.mem_cons, hca]

/-- Reading a cell of an aligned row goes back to the source row. -/
theorem getCell_alignRow (u cols : List String) (r : List (Option String))
    (c : String) :
    getCell u (alignRow u cols r) c
      = if c ∈ u then getCell cols r c else none := by
  show ((u.zip (u.map (getCell cols r))).lookup c).join
      = if c ∈ u then getCell cols r c else none
  rw [lookup_zip_map]
  by_cases hc : c ∈ u <;> simp [hc]

/-- Deduplication only keeps elements of the original list. -/
theorem mem_of_mem_keepFirst {α β : Type} [DecidableEq β] (key : α → β) :
    ∀ (xs : List α) (seen : List β) (x : α),
      x ∈ keepFirst key seen xs → x ∈ xs := by
  intro xs
  induction xs with
  | nil => intro seen x h; simp [keepFirst] at h
  | cons y ys ih =>
    intro seen x h
    simp only [keepFirst] at h
    by_cases hk : key y ∈ seen
    · rw [if_pos hk] at h
      exact List.mem_cons_of_mem y (ih seen x h)
    · rw [if_neg hk] at h
      rcases List.mem_cons.mp h with rfl | h2
      · exact List.mem_cons_self _ _
      · exact List.mem_cons_of_mem y (ih _ x h2)

/-- Keys of kept elements never lie in the seen accumulator. -/
theorem keepFirst_key_not_seen {α β : Type} [DecidableEq β] (key : α → β) :
    ∀ (xs : List α) (seen : List β) (x : α),
      x ∈ keepFirst key seen xs → key x ∉ seen := by
  intro xs
  induction xs with
  | nil => intro seen x h; simp [keepFirst] at h
  | cons y ys ih =>
    intro seen x h
    simp only [keepFirst] at h
    by_cases hk : key y ∈ seen
    · rw [if_pos hk] at h; exact ih seen x h
    · rw [if_neg hk] at h
      rcases List.mem_cons.mp h with rfl | h2
      · exact hk
      · intro hmem
        exact ih _ x h2 (List.mem_cons_of_mem _ hmem)

/-- After deduplication all key values are pairwise distinct. -/
theorem keepFirst_pairwise {α β : Type} [DecidableEq β] (key : α → β) :
    ∀ (xs : List α) (seen : List β),
      (keepFirst key seen xs).Pairwise (fun a b => key a ≠ key b) := by
  intro xs
  induction xs with
  | nil => intro seen; simp [keepFirst]
  | cons y ys ih =>
    intro seen
    simp only [keepFirst]
    by_cases hk : key y ∈ seen
    · rw [if_pos hk]; exact ih seen
    · rw [if_neg hk]
      refine List.Pairwise.cons ?_ (ih _)
      intro b hb hEq
      exact keepFirst_key_not_seen key ys (key y :: seen) b hb
        (by rw [← hEq]; exact List.mem_cons_self _ _)

/-- Deduplication does not change which element is found first for a
key that is not already in the accumulator. -/
theorem keepFirst_find? {α β : Type} [DecidableEq β] (key : α → β) (k : β) :
    ∀ (xs : List α) (seen : List β), k ∉ seen →
      (keepFirst key seen xs).find? (fun x => decide (key x = k))
        = xs.find? (fun x => decide (key x = k)) := by
  intro xs
  induction xs with
  | nil => intro seen _; simp [keepFirst]
  | cons y ys ih =>
    intro seen hs
    simp only [keepFirst]
    by_cases hk : key y ∈ seen
    · rw [if_pos hk]
      have hky : ¬ key y = k := fun h => hs (h ▸ hk)
      rw [List.find?_cons_of_neg _ (by simp [hky]), ih seen hs]
    · rw [if_neg hk]
      by_cases hky : key y = k
      · rw [List.find?_cons_of_pos _ (by simp [hky]),
            List.find?_cons_of_pos _ (by simp [hky])]
      · rw [List.find?_cons_of_neg _ (by simp [hky]),
            List.find?_cons_of_neg _ (by simp [hky])]
        apply ih
        simp only [List.mem_cons]
        rintro (rfl | hmem)
        · exact hky rfl
        · exact hs hmem

/-- A list all of whose keys are already seen deduplicates to nothing. -/
theorem keepFirst_all_seen {α β : Type} [DecidableEq β] (key : α → β) :
    ∀ (xs : List α) (seen : List β), (∀ x ∈ xs, key x ∈ seen) →
      keepFirst key seen xs = [] := by
  intro xs
  induction xs with
  | nil => intro seen _; rfl
  | cons y ys ih =>
    intro seen h
    simp only [keepFirst]
    rw [if_pos (h y (List.mem_cons_self _ _))]
    exact ih seen (fun x hx => h x (List.mem_cons_of_mem _ hx))

/-- Deduplicating a key-distinct block followed by rows whose keys are
all covered returns exactly the block. -/
theorem keepFirst_append_covered {α β : Type} [DecidableEq β] (key : α → β) :
    ∀ (xs : List α) (seen : List β) (ys : List α),
      xs.Pairwise (fun a b => key a ≠ key b) →
      (∀ x ∈ xs, key x ∉ seen) →
      (∀ y ∈ ys, key y ∈ seen ∨ ∃ x ∈ xs, key y = key x) →
      keepFirst key seen (xs ++ ys) = xs := by
  intro xs
  induction xs with
  | nil =>
    intro seen ys _ _ hcov
    simp only [List.nil_append]
    apply keepFirst_all_seen
    intro y hy
    rcases hcov y hy with hmem | ⟨x, hx, -⟩
    · exact hmem
    · simp at hx
  | cons x xs ih =>
    intro seen ys hpw hns hcov
    simp only [List.cons_append, keepFirst]
    rw [if_neg (hns x (List.mem_cons_self _ _))]
    congr 1
    apply ih (key x :: seen) ys (hpw.of_cons)
    · intro x2 hx2
      simp only [List.mem_cons]
      rintro (hEq | hmem)
      · exact (List.pairwise_cons.mp hpw).1 x2 hx2 hEq.symm
      · exact hns x2 (List.mem_cons_of_mem _ hx2) hmem
    · intro y hy
      rcases hcov y hy with hmem | ⟨x3, hx3, hEq⟩
      · exact Or.inl (List.mem_cons_of_mem _ hmem)
      · rcases List.mem_cons.mp hx3 with rfl | hx3
        · exact Or.inl (by rw [hEq]; exact List.mem_cons_self _ _)
        · exact Or.inr ⟨x3, hx3, hEq⟩

/-- For whole-row deduplication, every original element survives or was
already in the accumulator. -/
theorem mem_keepFirst_id {α : Type} [DecidableEq α] :
    ∀ (xs seen : List α) (x : α),
      x ∈ xs → x ∈ seen ∨ x ∈ keepFirst id seen xs := by
  intro xs
  induction xs with
  | nil => intro seen x h; simp at h
  | cons y ys ih =>
    intro seen x h
    simp only [keepFirst]
    by_cases hk : id y ∈ seen
    · rw [if_pos hk]
      rcases List.mem_cons.mp h with rfl | h2
      · exact Or.inl hk
      · exact ih seen x h2
    · rw [if_neg hk]
      rcases List.mem_cons.mp h with rfl | h2
      · exact Or.inr (List.mem_cons_self _ _)
      · rcases ih (id y :: seen) x h2 with hmem | hmem
        · rcases List.mem_cons.mp hmem with heq | hseen
          · exact Or.inr (by rw [heq]; exact List.mem_cons_self _ _)
          · exact Or.inl hseen
        · exact Or.inr (List.mem_cons_of_mem _ hmem)

/-- C4: merging readable CSV inputs concatenates them over the column
union; when `PROJECT_PUBLIC_ID` is in the union, rows are deduplicated
by that key keeping the first occurrence in input order — the output
row found for a key is the first file row carrying it, aligned to the
union — and the surviving key values are pairwise distinct; when the
key column is absent, exactly the whole-row duplicates are dropped
(same row set, no duplicate rows). -/
theorem c4_merge_first_wins (dfs : List DataFrame) (f1 f2 : DataFrame)
    (k : Option String) (r1 : List (Option String)) :
    (dfs ≠ [] → keyColumn ∈ unionCols dfs →
      ∃ out, combine_csv_files dfs = some out ∧
        out.cols = unionCols dfs ∧
        (∀ k2 : Option String,
          out.rows.find? (fun r => decide (getCell out.cols r keyColumn = k2))
            = (concatDfs dfs).rows.find?
                (fun r => decide (getCell (concatDfs dfs).cols r keyColumn = k2))) ∧
        out.rows.Pairwise (fun r s =>
          getCell out.cols r keyColumn ≠ getCell out.cols s keyColumn)) ∧
    (keyColumn ∈ unionCols [f1, f2] →
      f1.rows.find? (fun r => decide (getCell f1.cols r keyColumn = k))
        = some r1 →
      ∃ out, combine_csv_files [f1, f2] = some out ∧
        out.cols = unionCols [f1, f2] ∧
        out.rows.find? (fun r => decide (getCell out.cols r keyColumn = k))
          = some (alignRow (unionCols [f1, f2]) f1.cols r1) ∧
        out.rows.Pairwise (fun r s =>
          getCell out.cols r keyColumn ≠ getCell out.cols s keyColumn)) ∧
    (dfs ≠ [] → keyColumn ∉ unionCols dfs →
      ∃ out, combine_csv_files dfs = some out ∧
        out.cols = unionCols dfs ∧
        out.rows.Nodup ∧
        ∀ r, r ∈ out.rows ↔ r ∈ (concatDfs dfs).rows) := by
  refine ⟨?_, ?_, ?_⟩
  · intro hne hk
    have hk' : keyColumn ∈ (concatDfs dfs).cols := hk
    cases dfs with
    | nil => exact absurd rfl hne
    | cons d ds =>
      refine ⟨⟨(concatDfs (d :: ds)).cols,
        keepFirst (fun r => getCell (concatDfs (d :: ds)).cols r keyColumn) []
          (concatDfs (d :: ds)).rows⟩, ?_, rfl, ?_, ?_⟩
      · simp only [combine_csv_files]
        rw [if_pos hk']
      · intro k2
        exact keepFirst_find?
          (fun r => getCell (concatDfs (d :: ds)).cols r keyColumn) k2 _ [] (by simp)
      · exact keepFirst_pairwise _ _ []
  · intro hk h1
    have hk' : keyColumn ∈ (concatDfs [f1, f2]).cols := hk
    refine ⟨⟨unionCols [f1, f2],
      keepFirst (fun r => getCell (unionCols [f1, f2]) r keyColumn) []
        (f1.rows.map (alignRow (unionCols [f1, f2]) f1.cols)
          ++ (f2.rows.map (alignRow (unionCols [f1, f2]) f2.cols) ++ []))⟩,
      ?_, rfl, ?_, ?_⟩
    · simp only [combine_csv_files]
      rw [if_pos hk']
      rfl
    · show (keepFirst (fun r => getCell (unionCols [f1, f2]) r keyColumn) []
          (f1.rows.map (alignRow (unionCols [f1, f2]) f1.cols)
            ++ (f2.rows.map (alignRow (unionCols [f1, f2]) f2.cols) ++ []))).find?
          (fun r => decide (getCell (unionCols [f1, f2]) r keyColumn = k))
          = some (alignRow (unionCols [f1, f2]) f1.cols r1)
      rw [keepFirst_find?
        (fun r => getCell (unionCols [f1, f2]) r keyColumn) k _ [] (by simp)]
      rw [List.find?_append, List.find?_map]
      have hcomp : ((fun r => decide
            (getCell (unionCols [f1, f2]) r keyColumn = k))
          ∘ (alignRow (unionCols [f1, f2]) f1.cols))
          = fun r => decide (getCell f1.cols r keyColumn = k) := by
        funext r
        simp only [Function.comp_apply]
        rw [getCell_alignRow, if_pos hk]
      rw [hcomp, h1]
      rfl
    · exact keepFirst_pairwise _ _ []
  · intro hne hk
    have hk' : keyColumn ∉ (concatDfs dfs).cols := hk
    cases dfs with
    | nil => exact absurd rfl hne
    | cons d ds =>
      refine ⟨⟨(concatDfs (d :: ds)).cols,
        keepFirst id [] (concatDfs (d :: ds)).rows⟩, ?_, rfl, ?_, ?_⟩
      · simp only [combine_csv_files]
        rw [if_neg hk']
      · have := keepFirst_pairwise (id : List (Option String) → List (Option String))
          (concatDfs (d :: ds)).rows []
        simpa [List.Nodup] using this
      · intro r
        constructor
        · exact mem_of_mem_keepFirst id _ [] r
        · intro hr
          rcases mem_keepFirst_id (concatDfs (d :: ds)).rows [] r hr with hmem | hmem
          · simp at hmem
          · exact hmem

/-- C4 witness: two concrete frames with the shared key `K7` merge to
the first file row for that key, and keyless frames drop exact
duplicates only. -/
theorem c4_merge_first_wins_witness :
    (∃ out, combine_csv_files
        [⟨["PROJECT_PUBLIC_ID", "A"], [[some "K7", some "x1"]]⟩,
         ⟨["PROJECT_PUBLIC_ID", "A"], [[some "K7", some "x2"]]⟩] = some out ∧
      out.cols = unionCols
        [⟨["PROJECT_PUBLIC_ID", "A"], [[some "K7", some "x1"]]⟩,
         ⟨["PROJECT_PUBLIC_ID", "A"], [[some "K7", some "x2"]]⟩] ∧
      out.rows.find?
          (fun r => decide (getCell out.cols r keyColumn = some "K7"))
        = some (alignRow (unionCols
            [⟨["PROJECT_PUBLIC_ID", "A"], [[some "K7", some "x1"]]⟩,
             ⟨["PROJECT_PUBLIC_ID", "A"], [[some "K7", some "x2"]]⟩])
            ["PROJECT_PUBLIC_ID", "A"] [some "K7", some "x1"]) ∧
      out.rows.Pairwise (fun r s =>
        getCell out.cols r keyColumn ≠ getCell out.cols s keyColumn)) ∧
    (∃ out, combine_csv_files
        [⟨["B"], [[some "1"], [some "1"]]⟩, ⟨["B"], [[some "2"]]⟩]
          = some out ∧
      out.cols = unionCols
        [⟨["B"], [[some "1"], [some "1"]]⟩, ⟨["B"], [[some "2"]]⟩] ∧
      out.rows.Nodup ∧
      ∀ r, r ∈ out.rows ↔ r ∈ (concatDfs
        [⟨["B"], [[some "1"], [some "1"]]⟩, ⟨["B"], [[some "2"]]⟩]).rows) :=
  ⟨(c4_merge_first_wins []
      ⟨["PROJECT_PUBLIC_ID", "A"], [[some "K7", some "x1"]]⟩
      ⟨["PROJECT_PUBLIC_ID", "A"], [[some "K7", some "x2"]]⟩
      (some "K7") [some "K7", some "x1"]).2.1 (by decide) (by decide),
   (c4_merge_first_wins
      [⟨["B"], [[some "1"], [some "1"]]⟩, ⟨["B"], [[some "2"]]⟩]
      ⟨["B"], [[some "1"], [some "1"]]⟩ ⟨["B"], [[some "2"]]⟩ none []).2.2
      (by decide) (by decide)⟩

/-- The column union of copies of one frame is its own column list. -/
theorem unionCols_replicate (f : DataFrame) :
    ∀ n : Nat, unionCols (List.replicate (n + 1) f) = f.cols := by
  have hself : f.cols ++ f.cols.filter (fun c => decide (c ∉ f.cols)) = f.cols := by
    have : f.cols.filter (fun c => decide (c ∉ f.cols)) = [] :=
      List.filter_eq_nil_iff.mpr (fun c hc => by simp [hc])
    rw [this, List.append_nil]
  have hfold : ∀ m : Nat,
      List.foldl (fun acc df => acc ++ df.cols.filter (fun c => decide (c ∉ acc)))
        f.cols (List.replicate m f) = f.cols := by
    intro m
    induction m with
    | zero => rfl
    | succ p ih =>
      rw [List.replicate_succ, List.foldl_cons]
      show List.foldl (fun acc df => acc ++ df.cols.filter (fun c => decide (c ∉ acc)))
          (f.cols ++ f.cols.filter (fun c => decide (c ∉ f.cols)))
          (List.replicate p f) = f.cols
      rw [hself]
      exact ih
  intro n
  show List.foldl (fun acc df => acc ++ df.cols.filter (fun c => decide (c ∉ acc)))
      [] (List.replicate (n + 1) f) = f.cols
  rw [List.replicate_succ, List.foldl_cons]
  show List.foldl (fun acc df => acc ++ df.cols.filter (fun c => decide (c ∉ acc)))
      ([] ++ f.cols.filter (fun c => decide (c ∉ ([] : List String))))
      (List.replicate n f) = f.cols
  have hnil : f.cols.filter (fun c => decide (c ∉ ([] : List String))) = f.cols :=
    List.filter_eq_self.mpr (fun c _ => by simp)
  rw [List.nil_append, hnil]
  exact hfold n

/-- Aligning a well-formed row of a duplicate-free frame to its own
column list is the identity. -/
theorem alignRow_self : ∀ (cols : List String) (r : List (Option String)),
    cols.Nodup → r.length = cols.length → alignRow cols cols r = r := by
  intro cols
  induction cols with
  | nil =>
    intro r _ hlen
    rw [List.length_nil, List.length_eq_zero] at hlen
    subst hlen
    rfl
  | cons c cs ih =>
    intro r hnd hlen
    cases r with
    | nil => simp at hlen
    | cons x xs =>
      have hxs : xs.length = cs.length := by simpa using hlen
      have hc : c ∉ cs := (List.nodup_cons.mp hnd).1
      have hcs : cs.Nodup := (List.nodup_cons.mp hnd).2
      show List.map (getCell (c :: cs) (x :: xs)) (c :: cs) = x :: xs
      rw [List.map_cons]
      congr 1
      · simp [getCell, List.lookup]
      · have hmap : ∀ c2 ∈ cs,
            getCell (c :: cs) (x :: xs) c2 = getCell cs xs c2 := by
          intro c2 hc2
          have hne : ¬ c2 = c := fun h => hc (h ▸ hc2)
          simp [getCell, List.lookup, show (c2 == c) = false from by simp [hne],
            List.zip]
        rw [List.map_congr_left hmap]
        exact ih xs hcs hxs

/-- When the key column is present, `combine_csv_files` on a non-empty
input is the key-based deduplication of the concatenation. -/
theorem combine_csv_files_key (dfs : List DataFrame) (hne : dfs ≠ [])
    (hk : keyColumn ∈ (concatDfs dfs).cols) :
    combine_csv_files dfs = some ⟨(concatDfs dfs).cols,
      keepFirst (fun r => getCell (concatDfs dfs).cols r keyColumn) []
        (concatDfs dfs).rows⟩ := by
  cases dfs with
  | nil => exact absurd rfl hne
  | cons d ds =>
    simp only [combine_csv_files]
    rw [if_pos hk]

/-- C8: merging a key-deduplicated file with itself — or any number of
identical copies of it — returns exactly the original file: one row per
key value survives, all later duplicates are dropped. -/
theorem c8_merge_idempotent (f : DataFrame) (n : Nat)
    (hk : keyColumn ∈ f.cols) (hnd : f.cols.Nodup)
    (hlen : ∀ r ∈ f.rows, r.length = f.cols.length)
    (hdist : f.rows.Pairwise (fun r s =>
      getCell f.cols r keyColumn ≠ getCell f.cols s keyColumn)) :
    combine_csv_files (List.replicate (n + 1) f) = some f ∧
    combine_csv_files [f, f] = some f := by
  have hmain : ∀ m : Nat, combine_csv_files (List.replicate (m + 1) f) = some f := by
    intro m
    have hu : unionCols (List.replicate (m + 1) f) = f.cols := unionCols_replicate f m
    have hcols : (concatDfs (List.replicate (m + 1) f)).cols = f.cols := hu
    have halign : f.rows.map (alignRow f.cols f.cols) = f.rows := by
      rw [List.map_congr_left (fun r hr => alignRow_self f.cols r hnd (hlen r hr))]
      exact List.map_id _
    have hrows : (concatDfs (List.replicate (m + 1) f)).rows
        = f.rows ++ (List.replicate m f).flatMap
            (fun df => df.rows.map (alignRow f.cols df.cols)) := by
      show (List.replicate (m + 1) f).flatMap
          (fun df => df.rows.map
            (alignRow (unionCols (List.replicate (m + 1) f)) df.cols)) = _
      rw [hu, List.replicate_succ, List.flatMap_cons, halign]
    have hcover : ∀ y ∈ (List.replicate m f).flatMap
        (fun df => df.rows.map (alignRow f.cols df.cols)), y ∈ f.rows := by
      intro y hy
      rw [List.mem_flatMap] at hy
      obtain ⟨df, hdf, hy2⟩ := hy
      rw [List.eq_of_mem_replicate hdf] at hy2
      rwa [halign] at hy2
    have hkey : keyColumn ∈ (concatDfs (List.replicate (m + 1) f)).cols := by
      rw [hcols]; exact hk
    rw [combine_csv_files_key (List.replicate (m + 1) f)
      (by rw [List.replicate_succ]; exact List.cons_ne_nil _ _) hkey]
    rw [hcols, hrows]
    rw [keepFirst_append_covered (fun r => getCell f.cols r keyColumn)
      f.rows [] _ hdist (by simp) (fun y hy => Or.inr ⟨y, hcover y hy, rfl⟩)]
  exact ⟨hmain n, hmain 1⟩

/-- C8 witness: a concrete two-row key-distinct file merged with itself
is returned unchanged. -/
theorem c8_merge_idempotent_witness :
    combine_csv_files [⟨["PROJECT_PUBLIC_ID"], [[some "K1"], [some "K2"]]⟩,
                       ⟨["PROJECT_PUBLIC_ID"], [[some "K1"], [some "K2"]]⟩]
      = some ⟨["PROJECT_PUBLIC_ID"], [[some "K1"], [some "K2"]]⟩ :=
  (c8_merge_idempotent ⟨["PROJECT_PUBLIC_ID"], [[some "K1"], [some "K2"]]⟩ 0
    (by decide) (by decide) (by decide) (by decide)).2

/-- Zipping that only keeps the left component is the identity when the
right list is long enough. -/
theorem zipWith_left_of_le {α β : Type} :
    ∀ (l1 : List α) (l2 : List β), l1.length ≤ l2.length →
      List.zipWith (fun a _ => a) l1 l2 = l1 := by
  intro l1
  induction l1 with
  | nil => intro l2 _; rfl
  | cons a as ih =>
    intro l2 h
    cases l2 with
    | nil => simp at h
    | cons b bs =>
      simp only [List.zipWith_cons_cons, List.cons.injEq, true_and]
      exact ih bs (by simpa using h)

/-- Collapsing two zips over the same right-hand list. -/
theorem zipWith_zipWith_left_same {α β γ δ : Type} (f : α → β → γ)
    (g : γ → β → δ) :
    ∀ (xs : List α) (ys : List β),
      List.zipWith g (List.zipWith f xs ys) ys
        = List.zipWith (fun x y => g (f x y) y) xs ys := by
  intro xs
  induction xs with
  | nil => intro ys; rfl
  | cons x xs ih =>
    intro ys
    cases ys with
    | nil => rfl
    | cons y ys => simp only [List.zipWith_cons_cons, ih]

/-- Sequentially assigning fresh columns appends the column names in
order and extends each row with the corresponding values. -/
theorem foldl_setColumn_fresh (es : List Enriched7) :
    ∀ (ps : List (String × (Enriched7 → String))) (d : DataFrame),
      (∀ p ∈ ps, p.1 ∉ d.cols) → (ps.map Prod.fst).Nodup →
      d.rows.length = es.length →
      (ps.foldl (fun d p => setColumn d p.1 (es.map p.2)) d).cols
          = d.cols ++ ps.map Prod.fst ∧
      (ps.foldl (fun d p => setColumn d p.1 (es.map p.2)) d).rows
          = List.zipWith (fun r e => r ++ ps.map (fun p => some (p.2 e)))
              d.rows es := by
  intro ps
  induction ps with
  | nil =>
    intro d _ _ hlen
    refine ⟨by simp, ?_⟩
    simp only [List.foldl_nil, List.map_nil, List.append_nil]
    exact (zipWith_left_of_le d.rows es (le_of_eq hlen)).symm
  | cons p ps ih =>
    intro d hfresh hnd hlen
    simp only [List.foldl_cons]
    have hp : p.1 ∉ d.cols := hfresh p (List.mem_cons_self _ _)
    have hset : setColumn d p.1 (es.map p.2)
        = ⟨d.cols ++ [p.1],
           List.zipWith (fun r e => r ++ [some (p.2 e)]) d.rows es⟩ := by
      simp only [setColumn, hp, if_false]
      rw [List.zipWith_map_right]
    rw [hset]
    have hnd2 : (ps.map Prod.fst).Nodup := (List.nodup_cons.mp (by simpa using hnd)).2
    have hp2 : p.1 ∉ ps.map Prod.fst := (List.nodup_cons.mp (by simpa using hnd)).1
    obtain ⟨hcols, hrows⟩ := ih
      ⟨d.cols ++ [p.1], List.zipWith (fun r e => r ++ [some (p.2 e)]) d.rows es⟩
      (by
        intro q hq
        simp only [List.mem_append, List.mem_singleton]
        rintro (hmem | hEq)
        · exact hfresh q (List.mem_cons_of_mem _ hq) hmem
        · exact hp2 (hEq ▸ List.mem_map_of_mem Prod.fst hq))
      hnd2
      (by simp [hlen])
    refine ⟨?_, ?_⟩
    · rw [hcols]
      simp [List.append_assoc]
    · rw [hrows]
      show List.zipWith (fun r e => r ++ List.map (fun p => some (p.2 e)) ps)
          (List.zipWith (fun r e => r ++ [some (p.2 e)]) d.rows es) es
          = _
      rw [zipWith_zipWith_left_same]
      simp only [List.map_cons, List.append_assoc, List.singleton_append]

/-- C6 counterexample: on an input that already has a column named
`PROJECT_CREATED_AT`, enrichment overwrites that column in place (the
original value `"2020"` is lost) and appends only six new columns, so
the original column values are not preserved and fewer than 7 columns
are added. -/
theorem c6_counterexample :
    enrichDf ⟨none, fun _ _ => none, fun _ => none⟩
        ⟨["PROJECT_CREATED_AT"], [[some "2020"]]⟩
      = ⟨newColNames,
         [[some "", some "", some "", some "", some "", some "", some ""]]⟩ ∧
    (enrichDf ⟨none, fun _ _ => none, fun _ => none⟩
        ⟨["PROJECT_CREATED_AT"], [[some "2020"]]⟩).cols.length = 7 ∧
    getCell newColNames
        [some "", some "", some "", some "", some "", some "", some ""]
        "PROJECT_CREATED_AT" ≠ some "2020" := by
  refine ⟨by decide, by decide, by decide⟩

/-- C6 (amended): on any readable CSV whose columns are disjoint from
the seven enrichment column names, enrichment preserves the row count,
the row order and every original column and value, and appends exactly
the 7 new columns on the right. -/
theorem c6_enrich_frame (o : EnrichOracle) (df : DataFrame)
    (hdisj : ∀ c ∈ newColNames, c ∉ df.cols)
    (hlen : ∀ r ∈ df.rows, r.length = df.cols.length) :
    (enrichDf o df).cols = df.cols ++ newColNames ∧
    (enrichDf o df).rows.length = df.rows.length ∧
    (enrichDf o df).rows.map (fun r => r.take df.cols.length) = df.rows ∧
    ∀ r ∈ (enrichDf o df).rows, r.length = df.cols.length + 7 := by
  have hnd : (enrichColumns.map Prod.fst).Nodup := by decide
  have hfresh : ∀ p ∈ enrichColumns, p.1 ∉ df.cols := by
    intro p hp
    exact hdisj p.1 (List.mem_map_of_mem Prod.fst hp)
  obtain ⟨hcols, hrows⟩ := foldl_setColumn_fresh
    (df.rows.map (enrichValues o df.cols)) enrichColumns df hfresh hnd (by simp)
  have hcols' : (enrichDf o df).cols = df.cols ++ newColNames := hcols
  have hrows' : (enrichDf o df).rows
      = df.rows.map (fun r => r ++ enrichColumns.map
          (fun p => some (p.2 (enrichValues o df.cols r)))) := by
    show (enrichColumns.foldl
        (fun d p => setColumn d p.1 ((df.rows.map (enrichValues o df.cols)).map p.2))
        df).rows = _
    rw [hrows, List.zipWith_map_right, List.zipWith_same]
  refine ⟨hcols', ?_, ?_, ?_⟩
  · rw [hrows']; simp
  · rw [hrows', List.map_map]
    have : ∀ r ∈ df.rows,
        ((r ++ enrichColumns.map
          (fun p => some (p.2 (enrichValues o df.cols r)))).take df.cols.length)
        = r := by
      intro r hr
      rw [← hlen r hr]
      exact List.take_left r _
    rw [List.map_congr_left (fun r hr => by
      simpa using this r hr)]
    exact List.map_id _
  · rw [hrows']
    intro r hr
    rw [List.mem_map] at hr
    obtain ⟨r0, hr0, rfl⟩ := hr
    simp [hlen r0 hr0, enrichColumns]

/-- C6 witness: a one-column frame gains exactly the 7 columns with its
original cell intact. -/
theorem c6_enrich_frame_witness :
    (enrichDf ⟨none, fun _ _ => none, fun _ => none⟩ ⟨["X"], [[some "v"]]⟩).cols
      = ["X"] ++ newColNames ∧
    (enrichDf ⟨none, fun _ _ => none, fun _ => none⟩
        ⟨["X"], [[some "v"]]⟩).rows.map (fun r => r.take 1) = [[some "v"]] := by
  have h := c6_enrich_frame ⟨none, fun _ _ => none, fun _ => none⟩
    ⟨["X"], [[some "v"]]⟩ (by decide) (by decide)
  exact ⟨h.1, h.2.2.1⟩

/-- C9: enrichment skips any file whose path does not end in `.csv`
(case-insensitively): its on-disk content is left unchanged, and it
passes through `enrich_export_files` untouched. -/
theorem c9_noncsv_untouched (o : EnrichOracle) (path : String)
    (c : FileContent) (h : pyEndsWith (pyLower path) ".csv" = false) :
    enrichFile o path c = c ∧
    ∀ files, (path, c) ∈ files → (path, c) ∈ enrich_export_files o files := by
  have hf : enrichFile o path c = c := by
    simp [enrichFile, isCsvPath, h]
  refine ⟨hf, fun files hm => ?_⟩
  have := List.mem_map_of_mem (fun pc : String × FileContent =>
    (pc.1, enrichFile o pc.1 pc.2)) hm
  simpa [enrich_export_files, hf] using this

/-- C9 witness: a JSON artifact is not modified. -/
theorem c9_noncsv_untouched_witness :
    enrichFile ⟨none, fun _ _ => none, fun _ => none⟩ "export.json"
      (.raw "artifact-bytes") = .raw "artifact-bytes" :=
  (c9_noncsv_untouched ⟨none, fun _ _ => none, fun _ => none⟩ "export.json"
    (.raw "artifact-bytes") (by decide)).1

/-- C10: no entry whose id is in the hard-coded `excluded_ids` set of
ten organization ids ever appears in the result of `list_groups`,
regardless of what the organizations endpoint returned. -/
theorem c10_list_groups_excludes (responseData : List ApiOrg)
    (g : GroupEntry) (hg : g ∈ list_groups responseData)
    (e : String) (he : e ∈ excludedIds) : g.id ≠ some e := by
  simp only [list_groups, List.mem_filterMap] at hg
  obtain ⟨org, -, horg⟩ := hg
  unfold includeOrg at horg
  match hid : org.id with
  | none => rw [hid] at horg; cases horg; simp
  | some i =>
    rw [hid] at horg
    by_cases hmem : i ∈ excludedIds
    · simp [hmem] at horg
    · simp only [hmem, if_false] at horg
      cases horg
      simp only [Option.some.injEq, ne_eq]
      intro hie
      exact hmem (hie ▸ he)

/-- C10 witness: an excluded id present in the response does not appear
in the output. -/
theorem c10_list_groups_excludes_witness :
    (⟨some "good-org", "Unnamed Organization", "organization"⟩ : GroupEntry).id
      ≠ some "a8b06ecd-d0db-4a12-941d-c00691975a90" :=
  c10_list_groups_excludes
    [⟨some "a8b06ecd-d0db-4a12-941d-c00691975a90", some "Hidden"⟩,
     ⟨some "good-org", none⟩]
    ⟨some "good-org", "Unnamed Organization", "organization"⟩ (by decide)
    "a8b06ecd-d0db-4a12-941d-c00691975a90" (by decide)

end SnykExport
